import Mathlib

/-!
# Verification of the authentication and session subsystem

Shallow embedding of the auth core of the `normienationbeta` repository
(`server/auth.ts`, `server/authRoutes.ts`, `server/storage.ts`) and proofs of
the frozen specification claims about it.

Strings are modelled as lists of byte values (`List Nat`), matching the UTF-8
byte level at which `Buffer`, HMAC and the wire format operate.  Library
primitives that are not part of the repository (the HMAC-SHA256 digest,
bcrypt's hash/compare, the Ed25519 verifier, the e-mail validator) appear as
explicit function parameters, so every theorem quantifies over all possible
implementations of them.  Everything written by the repository itself
(base64url wrapping, JSON assembly of the claim set, dot-joining of the token
segments, the store queries, the route handlers) is translated definition by
definition from the source.
-/

namespace NormieAuth

/-- Byte list of a list of (ASCII) characters; used to write string literals
from the source as byte lists. -/
def strBytes (s : List Char) : List Nat := s.map Char.toNat

/-! ## Base64 (the encoding `Buffer.toString("base64")` implements)

`server/auth.ts` lines 26-38 wrap Node's base64 codec with the url-safe
character replacements and padding handling.  The standard base64 alphabet and
3-byte/4-char block coding are implemented here directly. -/

/-- Character (byte value) of the standard base64 alphabet at index `i % 64`. -/
def b64Char (i : Nat) : Nat :=
  let j := i % 64
  if j < 26 then 65 + j
  else if j < 52 then 97 + (j - 26)
  else if j < 62 then 48 + (j - 52)
  else if j = 62 then 43 else 47

/-- Index of a byte value in the base64 alphabet, if present. -/
def b64Index (c : Nat) : Option Nat :=
  if 65 ≤ c ∧ c ≤ 90 then some (c - 65)
  else if 97 ≤ c ∧ c ≤ 122 then some (26 + (c - 97))
  else if 48 ≤ c ∧ c ≤ 57 then some (52 + (c - 48))
  else if c = 43 then some 62
  else if c = 47 then some 63
  else none

/-- Standard base64 encoding of a byte list, with `=` (61) padding. -/
def base64encode : List Nat → List Nat
  | [] => []
  | [a] => [b64Char (a / 4), b64Char (a % 4 * 16), 61, 61]
  | [a, b] => [b64Char (a / 4), b64Char (a % 4 * 16 + b / 16), b64Char (b % 16 * 4), 61]
  | a :: b :: c :: rest =>
      b64Char (a / 4) :: b64Char (a % 4 * 16 + b / 16) :: b64Char (b % 16 * 4 + c / 64)
        :: b64Char (c % 64) :: base64encode rest

/-- Standard base64 decoding of a padded base64 byte list. -/
def base64decode : List Nat → List Nat
  | c1 :: c2 :: c3 :: c4 :: rest =>
    (match b64Index c1, b64Index c2 with
     | some i1, some i2 =>
       if c3 = 61 then [i1 * 4 + i2 / 16]
       else
         (match b64Index c3 with
          | some i3 =>
            if c4 = 61 then [i1 * 4 + i2 / 16, i2 % 16 * 16 + i3 / 4]
            else
              (match b64Index c4 with
               | some i4 => (i1 * 4 + i2 / 16) :: (i2 % 16 * 16 + i3 / 4)
                   :: (i3 % 4 * 64 + i4) :: base64decode rest
               | none => [])
          | none => [])
     | _, _ => [])
  | _ => []

/-- The url-safe character replacement applied after base64 encoding:
`+` (43) becomes `-` (45) and `/` (47) becomes `_` (95)
(`auth.ts` lines 29-30 and 55). -/
def urlMap (c : Nat) : Nat := if c = 43 then 45 else if c = 47 then 95 else c

/-- The inverse replacement applied before decoding: `-` back to `+`, `_` back
to `/` (`auth.ts` line 35). -/
def urlUnmap (c : Nat) : Nat := if c = 45 then 43 else if c = 95 then 47 else c

/-- `base64UrlEncode` of `auth.ts` lines 26-32: base64, url-safe replacements,
padding stripped.  The identical transformation is applied inline to the HMAC
digest on line 55. -/
def base64UrlEncode (bs : List Nat) : List Nat :=
  ((base64encode bs).map urlMap).filter (fun c => c ≠ 61)

/-- Re-padding loop of `base64UrlDecode` (`auth.ts` line 36): append `=` until
the length is a multiple of 4. -/
def padEq (s : List Nat) : List Nat :=
  s ++ List.replicate ((4 - s.length % 4) % 4) 61

/-- `base64UrlDecode` of `auth.ts` lines 34-38. -/
def base64UrlDecode (s : List Nat) : List Nat :=
  base64decode (padEq (s.map urlUnmap))

/-! ## Dot-separated token segments (`token.split(".")`, `auth.ts` line 62) -/

/-- JavaScript `String.split(".")` on a byte list: splits at every 46 (`.`),
keeping empty fields. -/
def splitDots : List Nat → List (List Nat)
  | [] => [[]]
  | c :: rest =>
    if c = 46 then [] :: splitDots rest
    else
      match splitDots rest with
      | p :: ps => (c :: p) :: ps
      | [] => [[c]]

/-! ## JSON form of the token payload

`createJWT` serialises the payload object with `JSON.stringify`
(`auth.ts` lines 49-50) and `verifyJWT` recovers it with `JSON.parse`
(line 74).  The exact serialised shape for this specific object — keys in
insertion order `userId, walletAddress, email, role, iat, exp`, strings
escaped per ECMAScript `QuoteJSONString` — is implemented below, together with
a reader that inverts it (modelling `JSON.parse` on the strings this codec
emits; a parse failure corresponds to the `catch` returning `null`). -/

/-- Lowercase hex digit byte for a value below 16. -/
def hexDig (i : Nat) : Nat := if i < 10 then 48 + i else 87 + i

/-- Hex digit value of a byte, if it is a lowercase hex digit. -/
def hexVal (c : Nat) : Option Nat :=
  if 48 ≤ c ∧ c ≤ 57 then some (c - 48)
  else if 97 ≤ c ∧ c ≤ 102 then some (c - 87)
  else none

/-- ECMAScript JSON string escaping on bytes: quote and backslash are
backslash-escaped, the named control escapes `\b \t \n \f \r` are used for
8, 9, 10, 12, 13, and other control bytes become `\u00XX`. -/
def jsonEscape : List Nat → List Nat
  | [] => []
  | c :: rest =>
    (if c = 34 ∨ c = 92 then [92, c]
     else if c = 8 then [92, 98]
     else if c = 9 then [92, 116]
     else if c = 10 then [92, 110]
     else if c = 12 then [92, 102]
     else if c = 13 then [92, 114]
     else if c < 32 then [92, 117, 48, 48, hexDig (c / 16), hexDig (c % 16)]
     else [c]) ++ jsonEscape rest

/-- Meaning of a single-character JSON escape. -/
def escChar (c : Nat) : Option Nat :=
  if c = 34 then some 34
  else if c = 92 then some 92
  else if c = 47 then some 47
  else if c = 98 then some 8
  else if c = 116 then some 9
  else if c = 110 then some 10
  else if c = 102 then some 12
  else if c = 114 then some 13
  else none

/-- Read a JSON string body up to its closing quote, undoing escapes; returns
the decoded bytes and the input after the closing quote.  The fuel argument
only bounds the recursion depth (each step consumes at least one byte, so any
fuel at least the input length is exact). -/
def jsonUnescapeAux : Nat → List Nat → Option (List Nat × List Nat)
  | 0, _ => none
  | _ + 1, [] => none
  | fuel + 1, c :: rest =>
    if c = 34 then some ([], rest)
    else if c = 92 then
      match rest with
      | [] => none
      | e :: rest' =>
        match escChar e with
        | some d => (jsonUnescapeAux fuel rest').map (fun pr => (d :: pr.1, pr.2))
        | none =>
          if e = 117 then
            match rest' with
            | h1 :: h2 :: h3 :: h4 :: rest'' =>
              match hexVal h1, hexVal h2, hexVal h3, hexVal h4 with
              | some v1, some v2, some v3, some v4 =>
                (jsonUnescapeAux fuel rest'').map
                  (fun pr => ((((v1 * 16 + v2) * 16 + v3) * 16 + v4) :: pr.1, pr.2))
              | _, _, _, _ => none
            | _ => none
          else none
    else (jsonUnescapeAux fuel rest).map (fun pr => (c :: pr.1, pr.2))

/-- JSON string-body reader with exact fuel. -/
def jsonUnescape (l : List Nat) : Option (List Nat × List Nat) :=
  jsonUnescapeAux l.length l

/-- Decimal digits of `n`, most significant first, fuel-bounded so that the
definition is structurally recursive (any fuel at least `n` is exact). -/
def natToDecAux : Nat → Nat → List Nat
  | 0, _ => []
  | fuel + 1, n => if n = 0 then [] else natToDecAux fuel (n / 10) ++ [48 + n % 10]

/-- Decimal byte representation of a natural number (JavaScript number
serialisation for the integer timestamps used here). -/
def natToDec (n : Nat) : List Nat := if n = 0 then [48] else natToDecAux n n

/-- Split a leading run of decimal digit bytes from the input. -/
def takeDigits : List Nat → List Nat × List Nat
  | [] => ([], [])
  | c :: rest =>
    if 48 ≤ c ∧ c ≤ 57 then
      let pr := takeDigits rest
      (c :: pr.1, pr.2)
    else ([], c :: rest)

/-- Value of a list of decimal digit bytes. -/
def decToNat (l : List Nat) : Nat := l.foldl (fun a c => a * 10 + (c - 48)) 0

/-- Read a decimal number from the front of the input. -/
def parseNat (l : List Nat) : Option (Nat × List Nat) :=
  match takeDigits l with
  | ([], _) => none
  | (ds, rest) => some (decToNat ds, rest)

/-- Drop an expected literal byte pattern from the front of the input. -/
def dropPat : List Nat → List Nat → Option (List Nat)
  | [], l => some l
  | _ :: _, [] => none
  | p :: ps, c :: cs => if c = p then dropPat ps cs else none

/-- JSON string literal for a byte string. -/
def jsonStr (s : List Nat) : List Nat := 34 :: (jsonEscape s ++ [34])

/-- JSON value for a nullable string: a string literal or `null`. -/
def jsonStrOrNull : Option (List Nat) → List Nat
  | some s => jsonStr s
  | none => [110, 117, 108, 108]

/-- A quoted JSON object key followed by `:`. -/
def keyBytes (k : List Char) : List Nat := 34 :: (strBytes k ++ [34, 58])

/-- Read a JSON string value from the front of the input. -/
def parseStr (l : List Nat) : Option (List Nat × List Nat) :=
  match l with
  | 34 :: rest => jsonUnescape rest
  | _ => none

/-- Read a JSON string-or-null value from the front of the input. -/
def parseStrOrNull (l : List Nat) : Option (Option (List Nat) × List Nat) :=
  match l with
  | 110 :: 117 :: 108 :: 108 :: rest => some (none, rest)
  | 34 :: rest => (jsonUnescape rest).map (fun pr => (some pr.1, pr.2))
  | _ => none

/-! ## The token payload and codec (`auth.ts` lines 12-19 and 40-82) -/

/-- `JWTPayload` (`auth.ts` lines 12-19). -/
structure JWTPayload where
  userId : List Nat
  walletAddress : Option (List Nat)
  email : Option (List Nat)
  role : List Nat
  iat : Nat
  exp : Nat
deriving DecidableEq

/-- The claim set handed to `createJWT`
(`Omit<JWTPayload, "iat" | "exp">`, `auth.ts` line 40). -/
structure ClaimSet where
  userId : List Nat
  walletAddress : Option (List Nat)
  email : Option (List Nat)
  role : List Nat
deriving DecidableEq

/-- `JSON.stringify` of the payload object: keys in insertion order
`userId, walletAddress, email, role, iat, exp` (`auth.ts` lines 43-47, 50). -/
def payloadToJson (p : JWTPayload) : List Nat :=
  123 :: (keyBytes ['u','s','e','r','I','d'] ++ jsonStr p.userId ++ [44]
    ++ keyBytes ['w','a','l','l','e','t','A','d','d','r','e','s','s']
      ++ jsonStrOrNull p.walletAddress ++ [44]
    ++ keyBytes ['e','m','a','i','l'] ++ jsonStrOrNull p.email ++ [44]
    ++ keyBytes ['r','o','l','e'] ++ jsonStr p.role ++ [44]
    ++ keyBytes ['i','a','t'] ++ natToDec p.iat ++ [44]
    ++ keyBytes ['e','x','p'] ++ natToDec p.exp ++ [125])

/-- `JSON.parse` on the payload strings this codec emits
(`auth.ts` line 74); any mismatch yields `none`, which the `catch` of
`verifyJWT` turns into an invalid-token result. -/
def parsePayload (l : List Nat) : Option JWTPayload := do
  let l1 ← dropPat (123 :: keyBytes ['u','s','e','r','I','d']) l
  let (uid, l2) ← parseStr l1
  let l3 ← dropPat (44 :: keyBytes ['w','a','l','l','e','t','A','d','d','r','e','s','s']) l2
  let (wa, l4) ← parseStrOrNull l3
  let l5 ← dropPat (44 :: keyBytes ['e','m','a','i','l']) l4
  let (em, l6) ← parseStrOrNull l5
  let l7 ← dropPat (44 :: keyBytes ['r','o','l','e']) l6
  let (rl, l8) ← parseStr l7
  let l9 ← dropPat (44 :: keyBytes ['i','a','t']) l8
  let (iatV, l10) ← parseNat l9
  let l11 ← dropPat (44 :: keyBytes ['e','x','p']) l10
  let (expV, l12) ← parseNat l11
  let l13 ← dropPat [125] l12
  if l13 = [] then
    pure { userId := uid, walletAddress := wa, email := em, role := rl,
           iat := iatV, exp := expV }
  else none

/-- Byte string of `JSON.stringify({ alg: "HS256", typ: "JWT" })`
(`auth.ts` lines 41, 49). -/
def headerJson : List Nat :=
  [123, 34, 97, 108, 103, 34, 58, 34, 72, 83, 50, 53, 54, 34, 44,
   34, 116, 121, 112, 34, 58, 34, 74, 87, 84, 34, 125]

/-- `SESSION_DURATION_DAYS * 24 * 60 * 60` seconds (`auth.ts` lines 10, 46). -/
def sessionDurationSecs : Nat := 7 * 24 * 60 * 60

/-- The full payload built by `createJWT` from the claim set and the current
time in seconds (`auth.ts` lines 42-47). -/
def mkFullPayload (c : ClaimSet) (nowSec : Nat) : JWTPayload :=
  { userId := c.userId, walletAddress := c.walletAddress, email := c.email,
    role := c.role, iat := nowSec, exp := nowSec + sessionDurationSecs }

/-- `createJWT` (`auth.ts` lines 40-58).  `hmacSHA256 secret input` stands for
the raw digest bytes of `crypto.createHmac("sha256", secret).update(input)`;
the digest is base64 encoded and made url-safe exactly like the other two
segments (line 55). -/
def createJWT (hmacSHA256 : List Nat → List Nat → List Nat)
    (secret : List Nat) (nowSec : Nat) (c : ClaimSet) : List Nat :=
  let encodedHeader := base64UrlEncode headerJson
  let encodedPayload := base64UrlEncode (payloadToJson (mkFullPayload c nowSec))
  let signatureInput := encodedHeader ++ 46 :: encodedPayload
  let signature := base64UrlEncode (hmacSHA256 secret signatureInput)
  signatureInput ++ 46 :: signature

/-- `verifyJWT` (`auth.ts` lines 60-82): split into three dot segments,
recompute the signature over the first two, compare, parse the payload and
enforce `payload.exp < now → invalid`. -/
def verifyJWT (hmacSHA256 : List Nat → List Nat → List Nat)
    (secret : List Nat) (nowSec : Nat) (token : List Nat) : Option JWTPayload :=
  match splitDots token with
  | [encodedHeader, encodedPayload, signature] =>
    let signatureInput := encodedHeader ++ 46 :: encodedPayload
    let expectedSignature := base64UrlEncode (hmacSHA256 secret signatureInput)
    if signature = expectedSignature then
      match parsePayload (base64UrlDecode encodedPayload) with
      | some payload => if payload.exp < nowSec then none else some payload
      | none => none
    else none
  | _ => none

/-! ## The relational store (`server/storage.ts`)

Rows mirror the drizzle schema columns the auth core reads.  Timestamps are
naturals; session/challenge/reset expiries are compared against the
millisecond clock (`new Date()`), the token payload's `exp` against the second
clock (`Math.floor(Date.now() / 1000)`), so handlers receive both clocks. -/

/-- A `users` row (the columns the auth subsystem touches). -/
structure UserRow where
  id : List Nat
  username : List Nat
  email : Option (List Nat)
  walletAddress : Option (List Nat)
  passwordHash : Option (List Nat)
  role : List Nat
  bannedAt : Option Nat
deriving DecidableEq

/-- A `sessions` row. -/
structure SessionRow where
  id : Nat
  userId : List Nat
  token : List Nat
  expiresAt : Nat
deriving DecidableEq

/-- A `password_reset_tokens` row. -/
structure ResetTokenRow where
  id : Nat
  userId : List Nat
  token : List Nat
  used : Bool
  expiresAt : Nat
deriving DecidableEq

/-- An `auth_challenges` row. -/
structure ChallengeRow where
  id : Nat
  walletAddress : List Nat
  challenge : List Nat
  used : Bool
  expiresAt : Nat
deriving DecidableEq

/-- The durable state the auth core reads and writes. -/
structure StoreState where
  users : List UserRow
  sessions : List SessionRow
  resetTokens : List ResetTokenRow
  challenges : List ChallengeRow
deriving DecidableEq

/-- `storage.getUser` (`storage.ts` lines 96-99). -/
def getUser (s : StoreState) (uid : List Nat) : Option UserRow :=
  s.users.find? (fun u => u.id == uid)

/-- `storage.getUserByEmail` (`storage.ts` lines 106-109); a SQL `eq` never
matches a NULL column. -/
def getUserByEmail (s : StoreState) (e : List Nat) : Option UserRow :=
  s.users.find? (fun u => u.email == some e)

/-- `storage.getUserByWallet` (`storage.ts` lines 111-114). -/
def getUserByWallet (s : StoreState) (w : List Nat) : Option UserRow :=
  s.users.find? (fun u => u.walletAddress == some w)

/-- `storage.updateUser(id, { passwordHash })` as called by the
change-password and reset-password handlers (`storage.ts` lines 121-128). -/
def updateUserPasswordHash (s : StoreState) (uid ph : List Nat) : StoreState :=
  { s with users := s.users.map (fun u => if u.id == uid then { u with passwordHash := some ph } else u) }

/-- `storage.updateUser(id, { role })` as called by the wallet-verify role
upgrade (`authRoutes.ts` line 95). -/
def updateUserRole (s : StoreState) (uid r : List Nat) : StoreState :=
  { s with users := s.users.map (fun u => if u.id == uid then { u with role := r } else u) }

/-- `storage.createSession` (`storage.ts` lines 139-142). -/
def createSession (s : StoreState) (row : SessionRow) : StoreState :=
  { s with sessions := s.sessions ++ [row] }

/-- `storage.getSessionByToken` (`storage.ts` lines 144-150): exact token
match and `expiresAt > now`. -/
def getSessionByToken (s : StoreState) (tok : List Nat) (nowMs : Nat) : Option SessionRow :=
  s.sessions.find? (fun r => r.token == tok && decide (nowMs < r.expiresAt))

/-- `storage.deleteUserSessions` (`storage.ts` lines 156-158). -/
def deleteUserSessions (s : StoreState) (uid : List Nat) : StoreState :=
  { s with sessions := s.sessions.filter (fun r => !(r.userId == uid)) }

/-- `storage.getPasswordResetToken` (`storage.ts` lines 166-178): token match,
`used = false`, `expiresAt > now`. -/
def getPasswordResetToken (s : StoreState) (tok : List Nat) (nowMs : Nat) :
    Option ResetTokenRow :=
  s.resetTokens.find?
    (fun r => r.token == tok && r.used == false && decide (nowMs < r.expiresAt))

/-- `storage.markPasswordResetTokenUsed` (`storage.ts` lines 180-182). -/
def markPasswordResetTokenUsed (s : StoreState) (i : Nat) : StoreState :=
  { s with resetTokens := s.resetTokens.map (fun r => if r.id == i then { r with used := true } else r) }

/-- `storage.getAuthChallenge` (`storage.ts` lines 190-203): wallet and
challenge text match, `used = false`, `expiresAt > now`. -/
def getAuthChallenge (s : StoreState) (w c : List Nat) (nowMs : Nat) :
    Option ChallengeRow :=
  s.challenges.find?
    (fun r => r.walletAddress == w && r.challenge == c && r.used == false
       && decide (nowMs < r.expiresAt))

/-- `storage.markAuthChallengeUsed` (`storage.ts` lines 205-207). -/
def markAuthChallengeUsed (s : StoreState) (i : Nat) : StoreState :=
  { s with challenges := s.challenges.map (fun r => if r.id == i then { r with used := true } else r) }

/-! ## Roles and the admin gate (`auth.ts` lines 114-123 and 206-216) -/

/-- Byte string `"admin"`. -/
def adminRole : List Nat := strBytes ['a', 'd', 'm', 'i', 'n']

/-- Byte string `"user"`. -/
def userRole : List Nat := strBytes ['u', 's', 'e', 'r']

/-- `isAdmin` (`auth.ts` lines 114-116): stored role is `"admin"` or the
wallet address equals the configured `ADMIN_WALLET_ADDRESS`. -/
def isAdmin (adminWallet : List Nat) (u : UserRow) : Bool :=
  u.role == adminRole || u.walletAddress == some adminWallet

/-- `determineRole` (`auth.ts` lines 118-123); the JavaScript guard
`walletAddress && …` makes the empty string fall through to `"user"`. -/
def determineRole (adminWallet : List Nat) (w : Option (List Nat)) : List Nat :=
  match w with
  | some a => if a ≠ [] ∧ a = adminWallet then adminRole else userRole
  | none => userRole

/-- `adminMiddleware` (`auth.ts` lines 206-216): grants access iff a user was
attached by the auth gate and `isAdmin` holds. -/
def adminGate (adminWallet : List Nat) (user : Option UserRow) : Bool :=
  match user with
  | none => false
  | some u => isAdmin adminWallet u

/-! ## The auth gate (`authMiddleware`, `auth.ts` lines 125-172) -/

/-- Outcome of the per-request auth gate; each rejecting constructor is one of
the distinct 401/403 responses of `authMiddleware`. -/
inductive AuthResult where
  | noToken
  | invalidToken
  | sessionMissing
  | userMissing
  | banned
  | authorized (u : UserRow)
deriving DecidableEq

/-- `authMiddleware` after token extraction: verify the token, require a live
session row for the exact token, load the user, reject banned accounts. -/
def authGate (hmacSHA256 : List Nat → List Nat → List Nat) (secret : List Nat)
    (nowSec nowMs : Nat) (s : StoreState) (token : Option (List Nat)) : AuthResult :=
  match token with
  | none => .noToken
  | some tok =>
    match verifyJWT hmacSHA256 secret nowSec tok with
    | none => .invalidToken
    | some payload =>
      match getSessionByToken s tok nowMs with
      | none => .sessionMissing
      | some _ =>
        match getUser s payload.userId with
        | none => .userMissing
        | some u => if u.bannedAt.isSome then .banned else .authorized u

/-! ## Route handlers (`server/authRoutes.ts`)

Each handler is a function from the store state and request fields to the new
store state and a response.  Each `Resp` constructor stands for one distinct
literal (status, body) response of the source; `Resp.status` recovers the
HTTP status code. -/

/-- The distinct responses of the modelled handlers. -/
inductive Resp where
  | validationError
  | missingFields
  | invalidOrExpiredChallenge
  | invalidSignature
  | okWallet (userId token : List Nat)
  | resetRequested
  | invalidOrExpiredResetToken
  | resetSuccess
  | walletOnlyAccount
  | wrongCurrentPassword
  | passwordChanged
deriving DecidableEq

/-- HTTP status code of each response, from the source literals. -/
def Resp.status : Resp → Nat
  | .validationError => 400
  | .missingFields => 400
  | .invalidOrExpiredChallenge => 400
  | .invalidSignature => 401
  | .okWallet _ _ => 200
  | .resetRequested => 200
  | .invalidOrExpiredResetToken => 400
  | .resetSuccess => 200
  | .walletOnlyAccount => 400
  | .wrongCurrentPassword => 401
  | .passwordChanged => 200

/-- The password policy of `body("password")` validation
(`authRoutes.ts` lines 143-146, 368-370, 535-540): at least 8 characters with
a lowercase letter, an uppercase letter and a digit. -/
def validPassword (p : List Nat) : Bool :=
  decide (8 ≤ p.length)
    && p.any (fun c => 97 ≤ c && c ≤ 122)
    && p.any (fun c => 65 ≤ c && c ≤ 90)
    && p.any (fun c => 48 ≤ c && c ≤ 57)

/-- Byte string `"normie_"`, the generated username prefix of
`authRoutes.ts` line 86. -/
def normieTag : List Nat := strBytes ['n', 'o', 'r', 'm', 'i', 'e', '_']

/-- `POST /auth/wallet/verify` (`authRoutes.ts` lines 60-133).
`verifySig c sig pk` stands for `verifyWalletSignature(challenge, signature,
publicKey)` (the tweetnacl Ed25519 check, `auth.ts` lines 98-112);
`freshUserId`/`freshSessionId` are the row identifiers the store generates on
insert.  Flow: look up the challenge, check the signature, mark the challenge
used, load or create the user (upgrading the role for the configured admin
wallet), issue a token and persist a session. -/
def walletVerify (verifySig : List Nat → List Nat → List Nat → Bool)
    (hmacSHA256 : List Nat → List Nat → List Nat) (secret adminWallet : List Nat)
    (nowSec nowMs : Nat) (freshUserId : List Nat) (freshSessionId : Nat)
    (s : StoreState) (w c sg pk : List Nat) : StoreState × Resp :=
  if w = [] ∨ c = [] ∨ sg = [] ∨ pk = [] then (s, .missingFields)
  else
    match getAuthChallenge s w c nowMs with
    | none => (s, .invalidOrExpiredChallenge)
    | some ch =>
      if ¬ verifySig c sg pk then (s, .invalidSignature)
      else
        let s1 := markAuthChallengeUsed s ch.id
        let su :=
          match getUserByWallet s1 w with
          | none =>
            let nu : UserRow :=
              { id := freshUserId, username := normieTag ++ w.take 8,
                email := none, walletAddress := some w, passwordHash := none,
                role := determineRole adminWallet (some w), bannedAt := none }
            ({ s1 with users := s1.users ++ [nu] }, nu)
          | some u =>
            if u.role ≠ adminRole ∧ determineRole adminWallet (some w) = adminRole then
              (updateUserRole s1 u.id adminRole, { u with role := adminRole })
            else (s1, u)
        let u := su.2
        let tok := createJWT hmacSHA256 secret nowSec
          { userId := u.id, walletAddress := u.walletAddress, email := u.email,
            role := if u.role = [] then userRole else u.role }
        let s3 := createSession su.1
          { id := freshSessionId, userId := u.id, token := tok,
            expiresAt := nowMs + 7 * 24 * 60 * 60 * 1000 }
        (s3, .okWallet u.id tok)

/-- `POST /auth/reset-password` (`authRoutes.ts` lines 364-401).
`hash` stands for `hashPassword` (bcrypt).  Any lookup failure — expired,
used, or absent token — takes the single `!resetToken` branch. -/
def resetPassword (hash : List Nat → List Nat) (nowMs : Nat) (s : StoreState)
    (tok pw : List Nat) : StoreState × Resp :=
  if tok = [] ∨ ¬ validPassword pw then (s, .validationError)
  else
    match getPasswordResetToken s tok nowMs with
    | none => (s, .invalidOrExpiredResetToken)
    | some rt =>
      let s1 := updateUserPasswordHash s rt.userId (hash pw)
      let s2 := markPasswordResetTokenUsed s1 rt.id
      let s3 := deleteUserSessions s2 rt.userId
      (s3, .resetSuccess)

/-- `POST /auth/change-password` (`authRoutes.ts` lines 530-577).
`cmp` stands for `verifyPassword` (bcrypt compare), `hash` for
`hashPassword`; `u` is the user the auth gate attached to the request.
On success the handler only rewrites the password hash. -/
def changePassword (cmp : List Nat → List Nat → Bool)
    (hash : List Nat → List Nat) (s : StoreState) (u : UserRow)
    (currentPassword newPassword : List Nat) : StoreState × Resp :=
  if currentPassword = [] ∨ ¬ validPassword newPassword then (s, .validationError)
  else
    match u.passwordHash with
    | none => (s, .walletOnlyAccount)
    | some ph =>
      if ¬ cmp currentPassword ph then (s, .wrongCurrentPassword)
      else (updateUserPasswordHash s u.id (hash newPassword), .passwordChanged)

/-! ## Password-reset request with its event trace
(`POST /auth/request-reset`, `authRoutes.ts` lines 310-362)

The handler is rendered as an ordered trace of its observable events so that
the temporal claim about response/persistence/dispatch ordering can be
stated.  The trace lists the events in source order: the handler calls
`res.json(...)` on line 325, persists the token row on line 332, and only
then attempts the e-mail dispatch on line 341; a dispatch failure lands in
the `catch`, which logs (the response has already been sent). -/

/-- Observable events of the request-reset handler, in occurrence order. -/
inductive REvent where
  | responded (r : Resp)
  | persistedResetToken (row : ResetTokenRow)
  | dispatchedEmail (addr : List Nat)
  | loggedDispatchFailure
deriving DecidableEq

/-- `POST /auth/request-reset`.  `emailValid`/`normalize` stand for the
`body("email").isEmail().normalizeEmail()` validator, `genTok` for the
`generatePasswordResetToken()` value, `freshId` for the inserted row id,
`canSend` for the presence of `SENDGRID_API_KEY` and `SENDGRID_FROM_EMAIL`,
and `sendFails` for an exception in `sgMail.send`.  The uniform success
message is sent before the user branch is examined. -/
def requestReset (emailValid : List Nat → Bool) (normalize : List Nat → List Nat)
    (genTok : List Nat) (freshId : Nat) (canSend sendFails : Bool) (nowMs : Nat)
    (s : StoreState) (email : List Nat) : StoreState × List REvent :=
  if ¬ emailValid email then (s, [.responded .validationError])
  else
    let e := normalize email
    match getUserByEmail s e with
    | none => (s, [.responded .resetRequested])
    | some u =>
      let row : ResetTokenRow :=
        { id := freshId, userId := u.id, token := genTok, used := false,
          expiresAt := nowMs + 1 * 60 * 60 * 1000 }
      let s1 := { s with resetTokens := s.resetTokens ++ [row] }
      let tail :=
        if canSend then
          [if sendFails then REvent.loggedDispatchFailure else REvent.dispatchedEmail e]
        else []
      (s1, .responded .resetRequested :: .persistedResetToken row :: tail)

/-- `true` when some `responded` event occurs strictly before any
`persistedResetToken` event in the trace. -/
def respondedBeforePersist : List REvent → Bool
  | [] => false
  | REvent.responded _ :: rest => rest.any (fun ev => match ev with
      | REvent.persistedResetToken _ => true
      | _ => false)
  | _ :: rest => respondedBeforePersist rest

/-! ## Interleaved execution of two wallet-verify requests

`§5` of the specification demands that the read (`getAuthChallenge`,
`authRoutes.ts` line 69) and the mark (`markAuthChallengeUsed`, line 81) act
as one atomic conditional update.  In the source they are two separate store
round trips with the signature check in between, so two requests may
interleave between them.  `wvStep` is the challenge-consuming phase of the
handler cut at its store accesses: phase 0 performs the lookup (and the local
signature check), phase 1 performs the mark and answers success. -/

/-- Per-request progress of the challenge-consuming phase of wallet-verify. -/
structure WvProc where
  phase : Nat
  found : Option ChallengeRow
  succeeded : Option Bool
deriving DecidableEq

/-- One atomic store access of a wallet-verify request: phase 0 is the
`getAuthChallenge` read (with the in-process signature check), phase 1 the
`markAuthChallengeUsed` write followed by the success response. -/
def wvStep (sigOk : Bool) (w c : List Nat) (nowMs : Nat) :
    StoreState × WvProc → StoreState × WvProc
  | (s, p) =>
    match p.phase with
    | 0 =>
      (match getAuthChallenge s w c nowMs with
       | none => (s, { p with phase := 2, succeeded := some false })
       | some ch =>
         if sigOk then (s, { p with phase := 1, found := some ch })
         else (s, { p with phase := 2, succeeded := some false }))
    | 1 =>
      (match p.found with
       | some ch => (markAuthChallengeUsed s ch.id,
           { p with phase := 2, succeeded := some true })
       | none => (s, { p with phase := 2, succeeded := some false }))
    | _ => (s, p)

/-- Run two wallet-verify requests for the same wallet/challenge under a
schedule: `true` steps the first request, `false` the second, over the shared
store. -/
def run2 (sigOk1 sigOk2 : Bool) (w c : List Nat) (nowMs : Nat) :
    List Bool → StoreState × WvProc × WvProc → StoreState × WvProc × WvProc
  | [], st => st
  | b :: rest, (s, p1, p2) =>
    if b then
      let sp := wvStep sigOk1 w c nowMs (s, p1)
      run2 sigOk1 sigOk2 w c nowMs rest (sp.1, sp.2, p2)
    else
      let sp := wvStep sigOk2 w c nowMs (s, p2)
      run2 sigOk1 sigOk2 w c nowMs rest (sp.1, p1, sp.2)

/-- `JWT_SECRET` initialisation (`auth.ts` line 8):
`process.env.JWT_SECRET || crypto.randomBytes(32).toString("hex")`.
`envSecret` is the configured value (`none` when the variable is unset; the
JavaScript `||` also treats an empty configured string as absent) and
`randomHex` the freshly generated fallback.  The initialiser always produces
a secret; there is no failing branch. -/
def jwtSecretInit (envSecret : Option (List Nat)) (randomHex : List Nat) : List Nat :=
  match envSecret with
  | some s => if s = [] then randomHex else s
  | none => randomHex

/-! ## Lemmas: base64 alphabet and round trip -/

theorem b64Index_b64Char : ∀ i < 64, b64Index (b64Char i) = some i := by decide

theorem b64Char_ne_61 : ∀ i < 64, b64Char i ≠ 61 := by decide

theorem urlMap_b64Char_ne_61 : ∀ i < 64, urlMap (b64Char i) ≠ 61 := by decide

theorem urlMap_b64Char_ne_46 : ∀ i < 64, urlMap (b64Char i) ≠ 46 := by decide

theorem urlUnmap_urlMap_b64Char : ∀ i < 64, urlUnmap (urlMap (b64Char i)) = b64Char i := by
  decide

theorem urlMap_61 : urlMap 61 = 61 := by decide

theorem padEq_nil : padEq [] = [] := by decide

theorem padEq_two (x y : Nat) : padEq [x, y] = [x, y, 61, 61] := by
  simp [padEq, List.replicate]

theorem padEq_three (x y z : Nat) : padEq [x, y, z] = [x, y, z, 61] := by
  simp [padEq, List.replicate]

theorem padEq_cons4 (w x y z : Nat) (l : List Nat) :
    padEq (w :: x :: y :: z :: l) = w :: x :: y :: z :: padEq l := by
  simp only [padEq, List.length_cons, List.cons_append]
  have h : (4 - (l.length + 1 + 1 + 1 + 1) % 4) % 4 = (4 - l.length % 4) % 4 := by omega
  rw [h]

/-- Keeping a non-61 head under the padding-strip filter. -/
theorem filter61_cons_keep (x : Nat) (l : List Nat) (hx : x ≠ 61) :
    (x :: l).filter (fun c => c ≠ 61) = x :: l.filter (fun c => c ≠ 61) := by
  simp [List.filter_cons, hx]

/-- Dropping a 61 (`=`) head under the padding-strip filter. -/
theorem filter61_cons_drop (l : List Nat) :
    ((61 : Nat) :: l).filter (fun c => c ≠ 61) = l.filter (fun c => c ≠ 61) := by
  simp [List.filter_cons]

/-- The composite `base64UrlDecode ∘ base64UrlEncode` round trip, proved by
the 3-byte block structure of the encoder. -/
theorem base64UrlDecode_base64UrlEncode :
    ∀ bs : List Nat, (∀ b ∈ bs, b < 256) → base64UrlDecode (base64UrlEncode bs) = bs := by
  intro bs
  induction bs using base64encode.induct with
  | case1 =>
    intro _
    simp [base64UrlDecode, base64UrlEncode, base64encode, padEq, base64decode]
  | case2 a =>
    intro h
    have ha : a < 256 := h a (by simp)
    have h1 : a / 4 < 64 := by omega
    have h2 : a % 4 * 16 < 64 := by omega
    have enc : base64UrlEncode [a] = [urlMap (b64Char (a / 4)), urlMap (b64Char (a % 4 * 16))] := by
      simp only [base64UrlEncode, base64encode, List.map_cons, List.map_nil, urlMap_61]
      rw [filter61_cons_keep _ _ (urlMap_b64Char_ne_61 _ h1),
        filter61_cons_keep _ _ (urlMap_b64Char_ne_61 _ h2),
        filter61_cons_drop, filter61_cons_drop]
      simp
    rw [enc]
    simp only [base64UrlDecode, List.map_cons, List.map_nil,
      urlUnmap_urlMap_b64Char _ h1, urlUnmap_urlMap_b64Char _ h2, padEq_two]
    simp [base64decode, b64Index_b64Char _ h1, b64Index_b64Char _ h2]
    omega
  | case3 a b =>
    intro h
    have ha : a < 256 := h a (by simp)
    have hb : b < 256 := h b (by simp)
    have h1 : a / 4 < 64 := by omega
    have h2 : a % 4 * 16 + b / 16 < 64 := by omega
    have h3 : b % 16 * 4 < 64 := by omega
    have enc : base64UrlEncode [a, b] = [urlMap (b64Char (a / 4)),
        urlMap (b64Char (a % 4 * 16 + b / 16)), urlMap (b64Char (b % 16 * 4))] := by
      simp only [base64UrlEncode, base64encode, List.map_cons, List.map_nil, urlMap_61]
      rw [filter61_cons_keep _ _ (urlMap_b64Char_ne_61 _ h1),
        filter61_cons_keep _ _ (urlMap_b64Char_ne_61 _ h2),
        filter61_cons_keep _ _ (urlMap_b64Char_ne_61 _ h3),
        filter61_cons_drop]
      simp
    rw [enc]
    simp only [base64UrlDecode, List.map_cons, List.map_nil,
      urlUnmap_urlMap_b64Char _ h1, urlUnmap_urlMap_b64Char _ h2,
      urlUnmap_urlMap_b64Char _ h3, padEq_three]
    simp [base64decode, b64Index_b64Char _ h1, b64Index_b64Char _ h2,
      b64Index_b64Char _ h3, b64Char_ne_61 _ h3]
    constructor
    · omega
    · omega
  | case4 a b c rest ih =>
    intro h
    have ha : a < 256 := h a (by simp)
    have hb : b < 256 := h b (by simp)
    have hc : c < 256 := h c (by simp)
    have hrest : ∀ x ∈ rest, x < 256 := fun x hx => h x (by simp [hx])
    have h1 : a / 4 < 64 := by omega
    have h2 : a % 4 * 16 + b / 16 < 64 := by omega
    have h3 : b % 16 * 4 + c / 64 < 64 := by omega
    have h4 : c % 64 < 64 := by omega
    have key := ih hrest
    have enc : base64UrlEncode (a :: b :: c :: rest) = urlMap (b64Char (a / 4))
        :: urlMap (b64Char (a % 4 * 16 + b / 16)) :: urlMap (b64Char (b % 16 * 4 + c / 64))
        :: urlMap (b64Char (c % 64)) :: base64UrlEncode rest := by
      simp only [base64UrlEncode, base64encode, List.map_cons]
      rw [filter61_cons_keep _ _ (urlMap_b64Char_ne_61 _ h1),
        filter61_cons_keep _ _ (urlMap_b64Char_ne_61 _ h2),
        filter61_cons_keep _ _ (urlMap_b64Char_ne_61 _ h3),
        filter61_cons_keep _ _ (urlMap_b64Char_ne_61 _ h4)]
    rw [enc]
    simp only [base64UrlDecode, List.map_cons,
      urlUnmap_urlMap_b64Char _ h1, urlUnmap_urlMap_b64Char _ h2,
      urlUnmap_urlMap_b64Char _ h3, urlUnmap_urlMap_b64Char _ h4, padEq_cons4]
    simp only [base64UrlDecode] at key
    simp [base64decode, b64Index_b64Char _ h1, b64Index_b64Char _ h2,
      b64Index_b64Char _ h3, b64Index_b64Char _ h4,
      b64Char_ne_61 _ h3, b64Char_ne_61 _ h4, key]
    refine ⟨by omega, by omega, by omega⟩

/-- Every byte of a base64url-encoded segment lies in the url-safe alphabet,
in particular it is never a dot. -/
theorem mem_base64UrlEncode_ne_46 (bs : List Nat) :
    ∀ x ∈ base64UrlEncode bs, x ≠ 46 := by
  have hmem : ∀ l : List Nat, ∀ x ∈ base64encode l, (∃ i, i < 64 ∧ x = b64Char i) ∨ x = 61 := by
    intro l
    induction l using base64encode.induct with
    | case1 => simp [base64encode]
    | case2 a =>
      intro x hx
      simp only [base64encode, List.mem_cons, List.not_mem_nil, or_false] at hx
      rcases hx with rfl | rfl | rfl | rfl
      · exact Or.inl ⟨(a / 4) % 64, by omega, by simp [b64Char]⟩
      · exact Or.inl ⟨(a % 4 * 16) % 64, by omega, by simp [b64Char]⟩
      · exact Or.inr rfl
      · exact Or.inr rfl
    | case3 a b =>
      intro x hx
      simp only [base64encode, List.mem_cons, List.not_mem_nil, or_false] at hx
      rcases hx with rfl | rfl | rfl | rfl
      · exact Or.inl ⟨(a / 4) % 64, by omega, by simp [b64Char]⟩
      · exact Or.inl ⟨(a % 4 * 16 + b / 16) % 64, by omega, by simp [b64Char]⟩
      · exact Or.inl ⟨(b % 16 * 4) % 64, by omega, by simp [b64Char]⟩
      · exact Or.inr rfl
    | case4 a b c rest ih =>
      intro x hx
      simp only [base64encode, List.mem_cons] at hx
      rcases hx with rfl | rfl | rfl | rfl | hx
      · exact Or.inl ⟨(a / 4) % 64, by omega, by simp [b64Char]⟩
      · exact Or.inl ⟨(a % 4 * 16 + b / 16) % 64, by omega, by simp [b64Char]⟩
      · exact Or.inl ⟨(b % 16 * 4 + c / 64) % 64, by omega, by simp [b64Char]⟩
      · exact Or.inl ⟨(c % 64) % 64, by omega, by simp [b64Char]⟩
      · exact ih x hx
  intro x hx
  simp only [base64UrlEncode, List.mem_filter, List.mem_map] at hx
  obtain ⟨⟨y, hy, rfl⟩, _⟩ := hx
  rcases hmem bs y hy with ⟨i, hi, rfl⟩ | rfl
  · exact urlMap_b64Char_ne_46 i hi
  · simp [urlMap]

/-! ## Lemmas: dot splitting -/

theorem splitDots_ne_nil : ∀ l : List Nat, splitDots l ≠ [] := by
  intro l
  cases l with
  | nil => simp [splitDots]
  | cons c rest =>
    simp only [splitDots]
    by_cases hc : c = 46
    · simp [hc]
    · simp only [if_neg hc]
      cases h : splitDots rest <;> simp

theorem splitDots_no_dot : ∀ l : List Nat, 46 ∉ l → splitDots l = [l] := by
  intro l
  induction l with
  | nil => intro _; rfl
  | cons c rest ih =>
    intro h
    have hc : c ≠ 46 := fun hc => h (by simp [hc])
    have hrest : 46 ∉ rest := fun hr => h (by simp [hr])
    simp only [splitDots, if_neg hc, ih hrest]

theorem splitDots_append (a : List Nat) (ha : 46 ∉ a) :
    ∀ b : List Nat, splitDots (a ++ 46 :: b) = a :: splitDots b := by
  induction a with
  | nil => intro b; simp [splitDots]
  | cons c rest ih =>
    intro b
    have hc : c ≠ 46 := fun h => ha (by simp [h])
    have hrest : 46 ∉ rest := fun h => ha (by simp [h])
    simp only [List.cons_append, splitDots, if_neg hc]
    rw [show rest.append (46 :: b) = rest ++ 46 :: b from rfl, ih hrest b]

theorem mem_splitDots_not_dot : ∀ l : List Nat, ∀ p ∈ splitDots l, 46 ∉ p := by
  intro l
  induction l with
  | nil => intro p hp; simp only [splitDots, List.mem_singleton] at hp; simp [hp]
  | cons c rest ih =>
    intro p hp
    simp only [splitDots] at hp
    by_cases hc : c = 46
    · rw [if_pos hc] at hp
      rcases List.mem_cons.mp hp with rfl | hmem
      · simp
      · exact ih p hmem
    · rw [if_neg hc] at hp
      rcases hsp : splitDots rest with _ | ⟨q, qs⟩
      · exact absurd hsp (splitDots_ne_nil rest)
      · rw [hsp] at hp
        rcases List.mem_cons.mp hp with rfl | hmem
        · intro hin
          rcases List.mem_cons.mp hin with h46 | hq
          · exact hc h46.symm
          · exact ih q (by simp [hsp]) hq
        · exact ih p (by simp [hsp, hmem])

theorem two_le_splitDots_length : ∀ l : List Nat, 46 ∈ l → 2 ≤ (splitDots l).length := by
  intro l
  induction l with
  | nil => intro h; simp at h
  | cons c rest ih =>
    intro h
    simp only [splitDots]
    by_cases hc : c = 46
    · rw [if_pos hc]
      have := splitDots_ne_nil rest
      simp only [List.length_cons]
      cases hr : splitDots rest with
      | nil => exact absurd hr this
      | cons q qs => simp
    · rw [if_neg hc]
      have hmem : 46 ∈ rest := by
        rcases List.mem_cons.mp h with h46 | hr
        · exact absurd h46.symm hc
        · exact hr
      have h2 := ih hmem
      cases hr : splitDots rest with
      | nil => exact absurd hr (splitDots_ne_nil rest)
      | cons q qs =>
        rw [hr] at h2
        simpa using h2

/-! ## Lemmas: JSON string escaping round trip -/

theorem hexVal_hexDig : ∀ v < 16, hexVal (hexDig v) = some v := by decide

theorem jsonUnescapeAux_jsonEscape :
    ∀ (s : List Nat) (fuel : Nat) (rest : List Nat), (jsonEscape s).length < fuel →
      jsonUnescapeAux fuel (jsonEscape s ++ 34 :: rest) = some (s, rest) := by
  intro s
  induction s with
  | nil =>
    intro fuel rest hf
    obtain ⟨f, rfl⟩ : ∃ f, fuel = f + 1 := ⟨fuel - 1, by omega⟩
    rfl
  | cons c s' ih =>
    intro fuel rest hf
    obtain ⟨f, rfl⟩ : ∃ f, fuel = f + 1 := ⟨fuel - 1, by simp [jsonEscape] at hf; omega⟩
    by_cases h1 : c = 34 ∨ c = 92
    · have hlen : (jsonEscape s').length < f := by
        simp only [jsonEscape, if_pos h1, List.length_append, List.length_cons] at hf ⊢
        omega
      rcases h1 with rfl | rfl
      · simp only [jsonEscape, if_pos (by simp : (34:Nat) = 34 ∨ (34:Nat) = 92),
          List.cons_append, List.nil_append]
        simp [jsonUnescapeAux, escChar, ih f rest hlen]
      · simp only [jsonEscape, if_pos (by simp : (92:Nat) = 34 ∨ (92:Nat) = 92),
          List.cons_append, List.nil_append]
        simp [jsonUnescapeAux, escChar, ih f rest hlen]
    · have hc34 : c ≠ 34 := fun h => h1 (Or.inl h)
      have hc92 : c ≠ 92 := fun h => h1 (Or.inr h)
      by_cases h8 : c = 8
      · subst h8
        have hlen : (jsonEscape s').length < f := by
          simp [jsonEscape] at hf; omega
        simp [jsonEscape, jsonUnescapeAux, escChar, ih f rest hlen]
      · by_cases h9 : c = 9
        · subst h9
          have hlen : (jsonEscape s').length < f := by
            simp [jsonEscape] at hf; omega
          simp [jsonEscape, jsonUnescapeAux, escChar, ih f rest hlen]
        · by_cases h10 : c = 10
          · subst h10
            have hlen : (jsonEscape s').length < f := by
              simp [jsonEscape] at hf; omega
            simp [jsonEscape, jsonUnescapeAux, escChar, ih f rest hlen]
          · by_cases h12 : c = 12
            · subst h12
              have hlen : (jsonEscape s').length < f := by
                simp [jsonEscape] at hf; omega
              simp [jsonEscape, jsonUnescapeAux, escChar, ih f rest hlen]
            · by_cases h13 : c = 13
              · subst h13
                have hlen : (jsonEscape s').length < f := by
                  simp [jsonEscape] at hf; omega
                simp [jsonEscape, jsonUnescapeAux, escChar, ih f rest hlen]
              · by_cases hctl : c < 32
                · have hlen : (jsonEscape s').length < f := by
                    simp only [jsonEscape, if_neg h1, if_neg h8, if_neg h9, if_neg h10,
                      if_neg h12, if_neg h13, if_pos hctl, List.length_append,
                      List.length_cons] at hf
                    omega
                  have hd1 : hexVal (hexDig (c / 16)) = some (c / 16) :=
                    hexVal_hexDig _ (by omega)
                  have hd2 : hexVal (hexDig (c % 16)) = some (c % 16) :=
                    hexVal_hexDig _ (by omega)
                  have h48 : hexVal 48 = some 0 := by decide
                  simp only [jsonEscape, if_neg h1, if_neg h8, if_neg h9, if_neg h10,
                    if_neg h12, if_neg h13, if_pos hctl, List.cons_append,
                    List.append_assoc, List.nil_append]
                  simp [jsonUnescapeAux, escChar, h48, hd1, hd2, ih f rest hlen]
                  omega
                · have hlen : (jsonEscape s').length < f := by
                    simp only [jsonEscape, if_neg h1, if_neg h8, if_neg h9, if_neg h10,
                      if_neg h12, if_neg h13, if_neg hctl, List.length_append,
                      List.length_cons] at hf
                    omega
                  simp only [jsonEscape, if_neg h1, if_neg h8, if_neg h9, if_neg h10,
                    if_neg h12, if_neg h13, if_neg hctl, List.cons_append,
                    List.append_assoc, List.nil_append]
                  simp [jsonUnescapeAux, hc34, hc92, ih f rest hlen]

theorem jsonUnescape_jsonEscape (s rest : List Nat) :
    jsonUnescape (jsonEscape s ++ 34 :: rest) = some (s, rest) := by
  have h : (jsonEscape s).length < (jsonEscape s ++ 34 :: rest).length := by
    simp
  exact jsonUnescapeAux_jsonEscape s _ rest h

/-! ## Lemmas: decimal digits round trip -/

theorem natToDecAux_foldl : ∀ (fuel n a : Nat), n ≤ fuel →
    List.foldl (fun x c => x * 10 + (c - 48)) a (natToDecAux fuel n)
      = a * 10 ^ (natToDecAux fuel n).length + n := by
  intro fuel
  induction fuel with
  | zero =>
    intro n a h
    have : n = 0 := by omega
    subst this
    simp [natToDecAux]
  | succ f ih =>
    intro n a h
    by_cases hn : n = 0
    · subst hn; simp [natToDecAux]
    · have hdiv : n / 10 ≤ f := by omega
      simp only [natToDecAux, if_neg hn, List.foldl_append, List.length_append,
        List.foldl_cons, List.foldl_nil, List.length_cons, List.length_nil]
      rw [ih (n / 10) a hdiv]
      have hsub : 48 + n % 10 - 48 = n % 10 := by omega
      rw [hsub]
      ring_nf
      omega

theorem decToNat_natToDec (n : Nat) : decToNat (natToDec n) = n := by
  by_cases hn : n = 0
  · subst hn; simp [natToDec, decToNat]
  · simp only [natToDec, if_neg hn, decToNat]
    rw [natToDecAux_foldl n n 0 (le_refl n)]
    simp

theorem natToDecAux_digits : ∀ (fuel n : Nat), ∀ c ∈ natToDecAux fuel n,
    48 ≤ c ∧ c ≤ 57 := by
  intro fuel
  induction fuel with
  | zero => intro n c hc; simp [natToDecAux] at hc
  | succ f ih =>
    intro n c hc
    by_cases hn : n = 0
    · subst hn; simp [natToDecAux] at hc
    · simp only [natToDecAux, if_neg hn, List.mem_append, List.mem_singleton] at hc
      rcases hc with hc | rfl
      · exact ih _ c hc
      · omega

theorem natToDec_digits (n : Nat) : ∀ c ∈ natToDec n, 48 ≤ c ∧ c ≤ 57 := by
  intro c hc
  by_cases hn : n = 0
  · subst hn; simp [natToDec] at hc; omega
  · simp only [natToDec, if_neg hn] at hc
    exact natToDecAux_digits n n c hc

theorem natToDec_ne_nil (n : Nat) : natToDec n ≠ [] := by
  by_cases hn : n = 0
  · subst hn; simp [natToDec]
  · simp only [natToDec, if_neg hn]
    have hfuel : ∃ f, n = f + 1 := ⟨n - 1, by omega⟩
    obtain ⟨f, hf⟩ := hfuel
    rw [hf]
    simp [natToDecAux, hn, hf]

theorem takeDigits_append (ds : List Nat) (hds : ∀ c ∈ ds, 48 ≤ c ∧ c ≤ 57) :
    ∀ rest : List Nat, (∀ c, rest.head? = some c → c < 48 ∨ 57 < c) →
      takeDigits (ds ++ rest) = (ds, rest) := by
  induction ds with
  | nil =>
    intro rest hrest
    cases rest with
    | nil => simp [takeDigits]
    | cons c cs =>
      have := hrest c (by simp)
      simp only [List.nil_append, takeDigits]
      rw [if_neg (by omega)]
  | cons d ds' ih =>
    intro rest hrest
    have hd := hds d (by simp)
    have hds' : ∀ c ∈ ds', 48 ≤ c ∧ c ≤ 57 := fun c hc => hds c (by simp [hc])
    simp only [List.cons_append, takeDigits]
    rw [if_pos (by omega)]
    rw [show ds'.append rest = ds' ++ rest from rfl, ih hds' rest hrest]

theorem parseNat_natToDec (n : Nat) (rest : List Nat)
    (hrest : ∀ c, rest.head? = some c → c < 48 ∨ 57 < c) :
    parseNat (natToDec n ++ rest) = some (n, rest) := by
  have htake := takeDigits_append (natToDec n) (natToDec_digits n) rest hrest
  simp only [parseNat, htake]
  cases hd : natToDec n with
  | nil => exact absurd hd (natToDec_ne_nil n)
  | cons x xs =>
    have : decToNat (natToDec n) = n := decToNat_natToDec n
    rw [hd] at this
    simp [this]

/-! ## Lemmas: payload JSON round trip -/

theorem dropPat_append : ∀ p l : List Nat, dropPat p (p ++ l) = some l := by
  intro p
  induction p with
  | nil => intro l; rfl
  | cons c cs ih => intro l; simp [dropPat, ih]

theorem dropPat_cons_append (c : Nat) (p l : List Nat) :
    dropPat (c :: p) (c :: (p ++ l)) = some l := by
  simp [dropPat, dropPat_append]

theorem parseStr_jsonStr (s rest : List Nat) :
    parseStr (jsonStr s ++ rest) = some (s, rest) := by
  simp only [jsonStr, List.cons_append, List.append_assoc, List.singleton_append]
  simp [parseStr, jsonUnescape_jsonEscape]

theorem parseStrOrNull_some (s rest : List Nat) :
    parseStrOrNull (jsonStrOrNull (some s) ++ rest) = some (some s, rest) := by
  simp only [jsonStrOrNull, jsonStr, List.cons_append, List.append_assoc,
    List.singleton_append]
  simp [parseStrOrNull, jsonUnescape_jsonEscape]

theorem parseStrOrNull_none (rest : List Nat) :
    parseStrOrNull (jsonStrOrNull none ++ rest) = some (none, rest) := by
  simp [jsonStrOrNull, parseStrOrNull]

theorem parseStrOrNull_jsonStrOrNull (o : Option (List Nat)) (rest : List Nat) :
    parseStrOrNull (jsonStrOrNull o ++ rest) = some (o, rest) := by
  cases o with
  | none => exact parseStrOrNull_none rest
  | some s => exact parseStrOrNull_some s rest

/-- `JSON.parse` inverts `JSON.stringify` on every payload object this codec
produces. -/
theorem parsePayload_payloadToJson (p : JWTPayload) :
    parsePayload (payloadToJson p) = some p := by
  obtain ⟨uid, wa, em, rl, ia, ex⟩ := p
  have h44 : ∀ c : Nat, (44 :: List.nil).head? = some c → c < 48 ∨ 57 < c := by
    intro c h; simp at h; omega
  simp only [payloadToJson, parsePayload, List.append_assoc, List.cons_append,
    List.singleton_append, List.nil_append]
  rw [dropPat_cons_append]
  simp only [Option.bind_eq_bind, Option.some_bind]
  rw [parseStr_jsonStr]
  simp only [Option.some_bind]
  rw [dropPat_cons_append]
  simp only [Option.some_bind]
  rw [parseStrOrNull_jsonStrOrNull]
  simp only [Option.some_bind]
  rw [dropPat_cons_append]
  simp only [Option.some_bind]
  rw [parseStrOrNull_jsonStrOrNull]
  simp only [Option.some_bind]
  rw [dropPat_cons_append]
  simp only [Option.some_bind]
  rw [parseStr_jsonStr]
  simp only [Option.some_bind]
  rw [dropPat_cons_append]
  simp only [Option.some_bind]
  rw [parseNat_natToDec ia (44 :: _) (by intro c h; simp at h; omega)]
  simp only [Option.some_bind]
  rw [dropPat_cons_append]
  simp only [Option.some_bind]
  rw [parseNat_natToDec ex [125] (by intro c h; simp at h; omega)]
  simp only [Option.some_bind]
  rw [show dropPat [125] [125] = some [] from rfl]
  simp

/-! ## Byte-range side conditions

The base64 block coding is exact on byte values below 256; the fields of a
claim set are UTF-8 strings, so their bytes satisfy this by construction. -/

/-- All values of a byte string are actual bytes. -/
def bytesOk (l : List Nat) : Prop := ∀ b ∈ l, b < 256

instance : DecidablePred bytesOk := fun l => List.decidableBAll _ l

/-- Byte condition for a nullable string. -/
def obytesOk : Option (List Nat) → Prop
  | none => True
  | some s => bytesOk s

instance : DecidablePred obytesOk := fun o =>
  match o with
  | none => Decidable.isTrue trivial
  | some s => inferInstanceAs (Decidable (bytesOk s))

theorem bytesOk_append (a b : List Nat) : bytesOk (a ++ b) ↔ bytesOk a ∧ bytesOk b := by
  simp [bytesOk, List.mem_append, or_imp, forall_and]

theorem bytesOk_cons (c : Nat) (l : List Nat) :
    bytesOk (c :: l) ↔ c < 256 ∧ bytesOk l := by
  simp [bytesOk]

theorem jsonEscape_ok : ∀ s, bytesOk s → bytesOk (jsonEscape s) := by
  intro s
  induction s with
  | nil => intro _ b hb; simp [jsonEscape] at hb
  | cons c rest ih =>
    intro h
    have hc : c < 256 := h c (by simp)
    have hrest : bytesOk rest := fun b hb => h b (by simp [hb])
    simp only [jsonEscape]
    rw [bytesOk_append]
    refine ⟨?_, ih hrest⟩
    intro b hb
    split_ifs at hb <;>
      simp only [List.mem_cons, List.not_mem_nil, or_false, hexDig] at hb <;>
      first
        | omega
        | (split_ifs at hb <;> omega)

theorem bytesOk_nil : bytesOk [] := fun b hb => absurd hb (List.not_mem_nil b)

theorem jsonStr_ok (s : List Nat) (h : bytesOk s) : bytesOk (jsonStr s) := by
  intro b hb
  simp only [jsonStr, List.mem_cons, List.mem_append, List.mem_singleton] at hb
  rcases hb with rfl | hb | hb
  · omega
  · exact jsonEscape_ok s h b hb
  · rcases hb with rfl | hb
    · omega
    · exact absurd hb (List.not_mem_nil b)

theorem jsonStrOrNull_ok (o : Option (List Nat)) (h : obytesOk o) :
    bytesOk (jsonStrOrNull o) := by
  cases o with
  | none => intro b hb; simp [jsonStrOrNull] at hb; omega
  | some s => exact jsonStr_ok s h

theorem natToDec_ok (n : Nat) : bytesOk (natToDec n) := by
  intro b hb
  have := natToDec_digits n b hb
  omega

theorem payloadToJson_ok (p : JWTPayload) (hu : bytesOk p.userId)
    (hw : obytesOk p.walletAddress) (he : obytesOk p.email) (hr : bytesOk p.role) :
    bytesOk (payloadToJson p) := by
  have k1 : bytesOk (keyBytes ['u','s','e','r','I','d']) := by decide
  have k2 : bytesOk (keyBytes ['w','a','l','l','e','t','A','d','d','r','e','s','s']) := by
    decide
  have k3 : bytesOk (keyBytes ['e','m','a','i','l']) := by decide
  have k4 : bytesOk (keyBytes ['r','o','l','e']) := by decide
  have k5 : bytesOk (keyBytes ['i','a','t']) := by decide
  have k6 : bytesOk (keyBytes ['e','x','p']) := by decide
  have c44 : ∀ l, bytesOk l → bytesOk (44 :: l) := by
    intro l hl; rw [bytesOk_cons]; exact ⟨by omega, hl⟩
  simp only [payloadToJson, List.append_assoc, List.singleton_append, bytesOk_cons,
    bytesOk_append, and_assoc]
  refine ⟨by omega, k1, jsonStr_ok _ hu, by omega, k2, jsonStrOrNull_ok _ hw,
    by omega, k3, jsonStrOrNull_ok _ he, by omega, k4, jsonStr_ok _ hr,
    by omega, k5, natToDec_ok _, by omega, k6, natToDec_ok _, by omega, bytesOk_nil⟩

/-! ## The codec round trip (claim C3 support) -/

theorem verifyJWT_eq_of_split (h256 : List Nat → List Nat → List Nat)
    (secret : List Nat) (now : Nat) (token eh ep sg : List Nat)
    (hsplit : splitDots token = [eh, ep, sg]) :
    verifyJWT h256 secret now token =
      (if sg = base64UrlEncode (h256 secret (eh ++ 46 :: ep)) then
        match parsePayload (base64UrlDecode ep) with
        | some payload => if payload.exp < now then none else some payload
        | none => none
      else none) := by
  unfold verifyJWT
  rw [hsplit]

/-- The issued token splits into its three segments. -/
theorem splitDots_createJWT (h256 : List Nat → List Nat → List Nat)
    (secret : List Nat) (t : Nat) (c : ClaimSet) :
    splitDots (createJWT h256 secret t c) =
      [base64UrlEncode headerJson,
       base64UrlEncode (payloadToJson (mkFullPayload c t)),
       base64UrlEncode (h256 secret (base64UrlEncode headerJson ++ 46 ::
         base64UrlEncode (payloadToJson (mkFullPayload c t))))] := by
  have heh : 46 ∉ base64UrlEncode headerJson := fun h =>
    mem_base64UrlEncode_ne_46 _ _ h rfl
  have hep : 46 ∉ base64UrlEncode (payloadToJson (mkFullPayload c t)) := fun h =>
    mem_base64UrlEncode_ne_46 _ _ h rfl
  have hsg : 46 ∉ base64UrlEncode (h256 secret (base64UrlEncode headerJson ++ 46 ::
      base64UrlEncode (payloadToJson (mkFullPayload c t)))) := fun h =>
    mem_base64UrlEncode_ne_46 _ _ h rfl
  show splitDots ((base64UrlEncode headerJson ++ 46 ::
      base64UrlEncode (payloadToJson (mkFullPayload c t))) ++ 46 :: _) = _
  rw [List.append_assoc, List.cons_append]
  rw [splitDots_append _ heh, splitDots_append _ hep, splitDots_no_dot _ hsg]

theorem verifyJWT_createJWT (h256 : List Nat → List Nat → List Nat)
    (secret : List Nat) (c : ClaimSet) (t now : Nat)
    (hu : bytesOk c.userId) (hw : obytesOk c.walletAddress)
    (he : obytesOk c.email) (hr : bytesOk c.role) :
    verifyJWT h256 secret now (createJWT h256 secret t c) =
      (if t + sessionDurationSecs < now then none else some (mkFullPayload c t)) := by
  have hok : bytesOk (payloadToJson (mkFullPayload c t)) :=
    payloadToJson_ok _ hu hw he hr
  rw [verifyJWT_eq_of_split h256 secret now _ _ _ _ (splitDots_createJWT h256 secret t c)]
  rw [if_pos rfl]
  rw [base64UrlDecode_base64UrlEncode _ hok, parsePayload_payloadToJson]
  rfl

/-! ## Tampered-signature support (claim C9) -/

/-- Join dot-separated segments back together (inverse of `splitDots`). -/
def joinDots : List (List Nat) → List Nat
  | [] => []
  | [x] => x
  | x :: y :: ys => x ++ 46 :: joinDots (y :: ys)

theorem joinDots_splitDots : ∀ l : List Nat, joinDots (splitDots l) = l := by
  intro l
  induction l with
  | nil => rfl
  | cons c rest ih =>
    simp only [splitDots]
    by_cases hc : c = 46
    · rw [if_pos hc]
      cases hr : splitDots rest with
      | nil => exact absurd hr (splitDots_ne_nil rest)
      | cons p ps =>
        rw [hr] at ih
        subst hc
        simp [joinDots, ih]
    · rw [if_neg hc]
      cases hr : splitDots rest with
      | nil => exact absurd hr (splitDots_ne_nil rest)
      | cons p ps =>
        rw [hr] at ih
        cases ps with
        | nil => simpa [joinDots] using congrArg (c :: ·) ih
        | cons q qs =>
          simp only [joinDots, List.cons_append] at ih ⊢
          rw [← ih]

/-- A token accepted by `verifyJWT` has a matching signature segment: the
third dot segment equals the recomputed url-safe base64 HMAC over the first
two. -/
theorem verify_some_signature (h256 : List Nat → List Nat → List Nat)
    (secret : List Nat) (now : Nat) (token eh ep sg : List Nat) (p : JWTPayload)
    (hsplit : splitDots token = [eh, ep, sg])
    (hv : verifyJWT h256 secret now token = some p) :
    sg = base64UrlEncode (h256 secret (eh ++ 46 :: ep)) := by
  rw [verifyJWT_eq_of_split h256 secret now token eh ep sg hsplit] at hv
  by_cases hsg : sg = base64UrlEncode (h256 secret (eh ++ 46 :: ep))
  · exact hsg
  · rw [if_neg hsg] at hv
    exact absurd hv (by simp)

theorem verifyJWT_tampered (h256 : List Nat → List Nat → List Nat)
    (secret : List Nat) (now : Nat) (token eh ep sg sg' : List Nat) (p : JWTPayload)
    (hv : verifyJWT h256 secret now token = some p)
    (hsplit : splitDots token = [eh, ep, sg])
    (hne : sg' ≠ sg) (now' : Nat) :
    verifyJWT h256 secret now' (eh ++ (46 :: (ep ++ (46 :: sg')))) = none := by
  have heh : 46 ∉ eh := mem_splitDots_not_dot token eh (by simp [hsplit])
  have hep : 46 ∉ ep := mem_splitDots_not_dot token ep (by simp [hsplit])
  have hsg := verify_some_signature h256 secret now token eh ep sg p hsplit hv
  by_cases hdot : 46 ∈ sg'
  · have hlen := two_le_splitDots_length sg' hdot
    have hsplit' : splitDots (eh ++ (46 :: (ep ++ (46 :: sg'))))
        = eh :: ep :: splitDots sg' := by
      rw [splitDots_append _ heh, splitDots_append _ hep]
    unfold verifyJWT
    rw [hsplit']
    rcases hq : splitDots sg' with _ | ⟨q1, qs⟩
    · exact absurd hq (splitDots_ne_nil sg')
    · rcases qs with _ | ⟨q2, qs'⟩
      · rw [hq] at hlen; simp at hlen
      · rfl
  · have hsplit' : splitDots (eh ++ (46 :: (ep ++ (46 :: sg'))))
        = [eh, ep, sg'] := by
      rw [splitDots_append _ heh, splitDots_append _ hep, splitDots_no_dot _ hdot]
    rw [verifyJWT_eq_of_split h256 secret now' _ _ _ _ hsplit']
    rw [if_neg (by rw [← hsg]; exact hne)]

/-! ## Store lemmas -/

theorem getUser_updateUserPasswordHash (s : StoreState) (uid ph x : List Nat) :
    getUser (updateUserPasswordHash s uid ph) x
      = Option.map (fun u => if u.id == uid then { u with passwordHash := some ph } else u)
          (getUser s x) := by
  simp only [getUser, updateUserPasswordHash]
  rw [List.find?_map]
  have hp : ∀ u : UserRow,
      ((fun u : UserRow => u.id == x) ∘
        (fun u => if u.id == uid then { u with passwordHash := some ph } else u)) u
      = (fun u : UserRow => u.id == x) u := by
    intro u
    by_cases h : u.id = uid <;> simp [h]
  rw [funext hp]

theorem getSessionByToken_eq_of_sessions (s1 s2 : StoreState)
    (h : s1.sessions = s2.sessions) (tok : List Nat) (nowMs : Nat) :
    getSessionByToken s1 tok nowMs = getSessionByToken s2 tok nowMs := by
  simp [getSessionByToken, h]

theorem getAuthChallenge_eq_of_challenges (s1 s2 : StoreState)
    (h : s1.challenges = s2.challenges) (w c : List Nat) (nowMs : Nat) :
    getAuthChallenge s1 w c nowMs = getAuthChallenge s2 w c nowMs := by
  simp [getAuthChallenge, h]

/-! ## Claim C1 -/

/-- C1: the change-password handler leaves the session table untouched, so a
token the auth gate accepted before the change is still accepted afterwards.
This refutes the claim that every session of the identity is revoked on
password change (`deleteUserSessions` is never called by that handler). -/
theorem c1_changePassword_keeps_sessions
    (h256 : List Nat → List Nat → List Nat) (secret : List Nat) (nowSec nowMs : Nat)
    (cmp : List Nat → List Nat → Bool) (hash : List Nat → List Nat)
    (s s' : StoreState) (u : UserRow) (tok cur npw : List Nat)
    (hgate : authGate h256 secret nowSec nowMs s (some tok) = .authorized u)
    (hcp : changePassword cmp hash s u cur npw = (s', .passwordChanged)) :
    s'.sessions = s.sessions ∧
      ∃ u', authGate h256 secret nowSec nowMs s' (some tok) = .authorized u' := by
  unfold changePassword at hcp
  split at hcp
  · simp at hcp
  · split at hcp
    · simp at hcp
    · split at hcp
      · simp at hcp
      · have hs' : s' = updateUserPasswordHash s u.id (hash npw) := by
          injection hcp with h1 h2
          exact h1.symm
        subst hs'
        refine ⟨rfl, ?_⟩
        simp only [authGate] at hgate ⊢
        cases hver : verifyJWT h256 secret nowSec tok with
        | none => rw [hver] at hgate; exact absurd hgate (by simp)
        | some payload =>
          rw [hver] at hgate
          simp only [] at hgate ⊢
          rw [getSessionByToken_eq_of_sessions (updateUserPasswordHash s u.id (hash npw)) s
            rfl tok nowMs]
          cases hsess : getSessionByToken s tok nowMs with
          | none => rw [hsess] at hgate; exact absurd hgate (by simp)
          | some srow =>
            rw [hsess] at hgate
            simp only [] at hgate ⊢
            simp only [getUser_updateUserPasswordHash]
            cases huser : getUser s payload.userId with
            | none => rw [huser] at hgate; exact absurd hgate (by simp)
            | some u0 =>
              rw [huser] at hgate
              simp only [] at hgate
              simp only [Option.map_some']
              by_cases hban : u0.bannedAt.isSome
              · rw [if_pos hban] at hgate; exact absurd hgate (by simp)
              · rw [if_neg hban] at hgate
                have hfb : (if u0.id == u.id then { u0 with passwordHash := some (hash npw) }
                    else u0).bannedAt = u0.bannedAt := by
                  by_cases h : u0.id = u.id <;> simp [h]
                refine ⟨if u0.id == u.id then { u0 with passwordHash := some (hash npw) }
                  else u0, ?_⟩
                rw [if_neg (by rw [hfb]; exact hban)]

/-! ## Claim C4: sequential single use of a challenge -/

/-- Store well-formedness for the challenge table: row ids are unique (they
are the primary key) and a (wallet, challenge-text) pair identifies at most
one row (`generateChallenge` embeds 16 random bytes and a timestamp in every
nonce, so two rows never share their text). -/
def challengesWF (s : StoreState) : Prop :=
  (∀ r1 ∈ s.challenges, ∀ r2 ∈ s.challenges, r1.id = r2.id → r1 = r2) ∧
  (∀ r1 ∈ s.challenges, ∀ r2 ∈ s.challenges,
     r1.walletAddress = r2.walletAddress → r1.challenge = r2.challenge → r1 = r2)

instance (s : StoreState) : Decidable (challengesWF s) := by
  unfold challengesWF
  infer_instance

/-- Once the row found by `getAuthChallenge` is marked used, no later lookup
for the same wallet and challenge text succeeds, at any clock value. -/
theorem getAuthChallenge_after_mark (s : StoreState) (w c : List Nat)
    (nowMs nowMs' : Nat) (ch : ChallengeRow)
    (hWF : challengesWF s) (hfind : getAuthChallenge s w c nowMs = some ch) :
    getAuthChallenge (markAuthChallengeUsed s ch.id) w c nowMs' = none := by
  have hmem := List.mem_of_find?_eq_some hfind
  have hprop := List.find?_some hfind
  simp only [Bool.and_eq_true, beq_iff_eq, decide_eq_true_eq] at hprop
  obtain ⟨⟨⟨hw, hc⟩, hused⟩, hexp⟩ := hprop
  simp only [getAuthChallenge, markAuthChallengeUsed]
  rw [List.find?_eq_none]
  intro x hx
  simp only [List.mem_map] at hx
  obtain ⟨r, hr, rfl⟩ := hx
  by_cases hid : r.id == ch.id
  · rw [if_pos hid]
    simp
  · rw [if_neg hid]
    intro hpred
    simp only [Bool.and_eq_true, beq_iff_eq, decide_eq_true_eq] at hpred
    obtain ⟨⟨⟨hrw, hrc⟩, _⟩, _⟩ := hpred
    have hrch : r = ch := hWF.2 r hr ch hmem (by rw [hrw, hw]) (by rw [hrc, hc])
    subst hrch
    simp at hid

/-- C4: after one wallet-verify succeeds for a wallet/challenge pair, every
later wallet-verify call presenting the same pair is rejected with the
uniform invited/expired-challenge outcome, whatever signature, keys, secret,
clock or signature-checker the later call uses. -/
theorem c4_challenge_not_reusable
    (vSig vSig' : List Nat → List Nat → List Nat → Bool)
    (h256 h256' : List Nat → List Nat → List Nat)
    (secret secret' adminWallet adminWallet' : List Nat)
    (t1s t1m t2s t2m : Nat) (fu fu' : List Nat) (fs fs' : Nat)
    (s s' : StoreState) (w c sg pk sg' pk' uid tk : List Nat)
    (hWF : challengesWF s)
    (h1 : walletVerify vSig h256 secret adminWallet t1s t1m fu fs s w c sg pk
       = (s', Resp.okWallet uid tk))
    (hsg' : sg' ≠ []) (hpk' : pk' ≠ []) :
    walletVerify vSig' h256' secret' adminWallet' t2s t2m fu' fs' s' w c sg' pk'
      = (s', Resp.invalidOrExpiredChallenge) := by
  simp only [walletVerify] at h1
  split at h1
  · exact absurd h1 (by simp)
  · rename_i hmiss
    cases hch : getAuthChallenge s w c t1m with
    | none => rw [hch] at h1; exact absurd h1 (by simp)
    | some ch =>
      rw [hch] at h1
      simp only [] at h1
      split at h1
      · exact absurd h1 (by simp)
      · injection h1 with hfst hsnd
        have hchal : s'.challenges = (markAuthChallengeUsed s ch.id).challenges := by
          rw [← hfst]
          rcases hgu : getUserByWallet (markAuthChallengeUsed s ch.id) w with _ | u1
          · rfl
          · simp only []
            split_ifs <;> rfl
        have hw : w ≠ [] := fun h => hmiss (Or.inl h)
        have hc : c ≠ [] := fun h => hmiss (Or.inr (Or.inl h))
        simp only [walletVerify]
        rw [if_neg (by simp [hw, hc, hsg', hpk'])]
        rw [getAuthChallenge_eq_of_challenges s' (markAuthChallengeUsed s ch.id) hchal w c t2m]
        rw [getAuthChallenge_after_mark s w c t1m t2m ch hWF hch]

/-! ## Claim C5: the challenge-consume race -/

/-- A store holding one live unused challenge for wallet `[119]` and
challenge text `[99]`. -/
def c5Store : StoreState :=
  { users := [], sessions := [], resetTokens := [],
    challenges := [{ id := 1, walletAddress := [119], challenge := [99],
                     used := false, expiresAt := 100 }] }

/-- A wallet-verify request that has not yet performed its challenge read. -/
def c5Proc : WvProc := { phase := 0, found := none, succeeded := none }

/-- C5: the schedule read₁, read₂, mark₁, mark₂ — both requests perform their
`getAuthChallenge` read before either performs its `markAuthChallengeUsed`
write — lets both wallet-verify calls succeed on the same single-use
challenge with valid signatures.  The read-check-mark sequence of the handler
is therefore not an atomic conditional update: the claim's "exactly one call
succeeds" fails on this interleaving. -/
theorem c5_double_consume_interleaving :
    ((run2 true true [119] [99] 0 [true, false, true, false]
        (c5Store, c5Proc, c5Proc)).2.1.succeeded = some true) ∧
    ((run2 true true [119] [99] 0 [true, false, true, false]
        (c5Store, c5Proc, c5Proc)).2.2.succeeded = some true) := by
  constructor
  · rfl
  · rfl

/-! ## Claim C3: issue/verify round trip with expiry -/

/-- C3: for every claim set and secret, verifying the freshly issued token
returns exactly the issued claims while the check time has not passed the
token's expiry (`iat + 7 days`); once the check time exceeds the expiry,
verification returns invalid.  `h256` ranges over every possible HMAC
implementation, so nothing here depends on properties of SHA-256. -/
theorem c3_issue_verify_round_trip (h256 : List Nat → List Nat → List Nat)
    (secret : List Nat) (c : ClaimSet) (t now : Nat)
    (hu : bytesOk c.userId) (hw : obytesOk c.walletAddress)
    (he : obytesOk c.email) (hr : bytesOk c.role) :
    (now ≤ t + sessionDurationSecs →
       verifyJWT h256 secret now (createJWT h256 secret t c) = some (mkFullPayload c t)) ∧
    (t + sessionDurationSecs < now →
       verifyJWT h256 secret now (createJWT h256 secret t c) = none) := by
  have h := verifyJWT_createJWT h256 secret c t now hu hw he hr
  constructor
  · intro hle
    rw [h, if_neg (by omega)]
  · intro hlt
    rw [h, if_pos hlt]

/-! ## Claim C9: single-character signature tampering -/

/-- C9: a token accepted by `verifyJWT` is rejected, at every clock value,
after changing exactly one character of its signature segment — whether the
new character keeps the segment dot-free (signature comparison fails) or is
itself a dot (the segment count stops being three). -/
theorem c9_signature_tamper_rejected (h256 : List Nat → List Nat → List Nat)
    (secret : List Nat) (now : Nat) (t eh ep sg sg' : List Nat)
    (p : JWTPayload) (i : Nat)
    (hv : verifyJWT h256 secret now t = some p)
    (hsplit : splitDots t = [eh, ep, sg])
    (hlen : sg'.length = sg.length)
    (hi : i < sg.length)
    (hdiff : sg'.get ⟨i, by omega⟩ ≠ sg.get ⟨i, hi⟩)
    (hsame : ∀ j (hj : j < sg.length), j ≠ i →
       sg'.get ⟨j, by omega⟩ = sg.get ⟨j, hj⟩) :
    t = eh ++ (46 :: (ep ++ (46 :: sg))) ∧
      ∀ now', verifyJWT h256 secret now' (eh ++ (46 :: (ep ++ (46 :: sg')))) = none := by
  have hne : sg' ≠ sg := by
    intro he
    subst he
    exact hdiff rfl
  constructor
  · have := joinDots_splitDots t
    rw [hsplit] at this
    simpa [joinDots] using this.symm
  · exact verifyJWT_tampered h256 secret now t eh ep sg sg' p hv hsplit hne

/-! ## Claim C6: uniform reset-token failure -/

/-- C6: a reset token that is expired, already used, or was never issued all
take the same `!resetToken` branch of the reset-password handler and produce
the identical uniform invalid-or-expired response, with the store left
untouched; no distinction among the three cases is observable. -/
theorem c6_reset_failure_uniform (hash : List Nat → List Nat) (nowMs : Nat)
    (s : StoreState) (tok pw : List Nat)
    (htok : tok ≠ []) (hpw : validPassword pw = true) :
    ((∀ r ∈ s.resetTokens, r.token ≠ tok) →
       resetPassword hash nowMs s tok pw = (s, Resp.invalidOrExpiredResetToken)) ∧
    ((∀ r ∈ s.resetTokens, r.token = tok → r.used = true) →
       resetPassword hash nowMs s tok pw = (s, Resp.invalidOrExpiredResetToken)) ∧
    ((∀ r ∈ s.resetTokens, r.token = tok → r.expiresAt ≤ nowMs) →
       resetPassword hash nowMs s tok pw = (s, Resp.invalidOrExpiredResetToken)) := by
  have base : getPasswordResetToken s tok nowMs = none →
      resetPassword hash nowMs s tok pw = (s, Resp.invalidOrExpiredResetToken) := by
    intro hnone
    simp only [resetPassword]
    rw [if_neg (by simp [htok, hpw])]
    rw [hnone]
  refine ⟨fun h => base ?_, fun h => base ?_, fun h => base ?_⟩
  all_goals simp only [getPasswordResetToken]
  all_goals rw [List.find?_eq_none]
  all_goals intro r hr
  all_goals simp only [Bool.and_eq_true, beq_iff_eq, decide_eq_true_eq, not_and]
  · intro htk
    exact absurd htk.1 (h r hr)
  · intro htk
    rw [h r hr htk.1] at htk
    simp at htk
  · intro htk hex
    exact absurd hex (by have := h r hr htk.1; omega)

/-! ## Claim C7: uniform reset-request response -/

/-- C7: for every validator-accepted e-mail, the first (and only) response
event of the request-reset handler is the uniform success message, whether or
not the e-mail belongs to a registered identity; and when it does not, the
store is unchanged and the trace holds no persistence and no dispatch
event. -/
theorem c7_request_reset_no_account_oracle
    (emailValid : List Nat → Bool) (normalize : List Nat → List Nat)
    (genTok : List Nat) (freshId : Nat) (canSend sendFails : Bool)
    (nowMs : Nat) (s : StoreState) (email : List Nat)
    (hv : emailValid email = true) :
    ((requestReset emailValid normalize genTok freshId canSend sendFails nowMs
        s email).2.head? = some (REvent.responded Resp.resetRequested)) ∧
    (getUserByEmail s (normalize email) = none →
       requestReset emailValid normalize genTok freshId canSend sendFails nowMs
         s email = (s, [REvent.responded Resp.resetRequested])) := by
  constructor
  · simp only [requestReset]
    rw [if_neg (by simp [hv])]
    cases hu : getUserByEmail s (normalize email) <;> simp
  · intro hnone
    simp only [requestReset]
    rw [if_neg (by simp [hv]), hnone]

/-! ## Claim C8: response is sent before token persistence -/

/-- A registered user for the counterexample store. -/
def c8User : UserRow :=
  { id := [117], username := [110], email := some [101], walletAddress := none,
    passwordHash := some [104], role := [117, 115, 101, 114], bannedAt := none }

/-- Store with one registered e-mail `[101]`. -/
def c8Store : StoreState :=
  { users := [c8User], sessions := [], resetTokens := [], challenges := [] }

/-- C8 counterexample: for a registered e-mail, the handler's event trace has
its uniform success response strictly before the reset-token persistence
event (the source sends `res.json` on line 325 and persists on line 332), so
"the success response is returned only after the reset token has been
persisted" is false. -/
theorem c8_response_before_persist_counterexample :
    respondedBeforePersist
        ((requestReset (fun _ => true) id [55] 7 true false 0 c8Store [101]).2) = true ∧
    ((requestReset (fun _ => true) id [55] 7 true false 0 c8Store [101]).2).head?
      = some (REvent.responded Resp.resetRequested) := by
  constructor
  · rfl
  · rfl

/-- C8 amended: for a registered, validator-accepted e-mail the handler
responds with the uniform success message first, persists the reset-token row
after responding, and attempts the dispatch only after persistence; a failed
dispatch is logged rather than surfaced, leaving the already-sent uniform
response unchanged. -/
theorem c8_response_first_then_persist_then_dispatch
    (emailValid : List Nat → Bool) (normalize : List Nat → List Nat)
    (genTok : List Nat) (freshId : Nat) (canSend sendFails : Bool)
    (nowMs : Nat) (s : StoreState) (email : List Nat) (u : UserRow)
    (hv : emailValid email = true)
    (hreg : getUserByEmail s (normalize email) = some u) :
    (requestReset emailValid normalize genTok freshId canSend sendFails nowMs
        s email).2
      = REvent.responded Resp.resetRequested
        :: REvent.persistedResetToken
             { id := freshId, userId := u.id, token := genTok, used := false,
               expiresAt := nowMs + 1 * 60 * 60 * 1000 }
        :: (if canSend then
              [if sendFails then REvent.loggedDispatchFailure
               else REvent.dispatchedEmail (normalize email)]
            else []) := by
  simp only [requestReset]
  rw [if_neg (by simp [hv]), hreg]

/-! ## Claim C2: the signing-secret fallback -/

/-- Claim set used to exercise the secret initialiser. -/
def c2Claims : ClaimSet :=
  { userId := [117], walletAddress := none, email := none, role := [117] }

/-- C2: when the configured secret is absent (or empty), `jwtSecretInit`
silently substitutes the freshly generated random value instead of failing:
the codec then issues and verifies tokens under the substitute, and a token
issued under one process start fails verification after a restart that drew a
different random value.  There is no failing branch, refuting the claim that
startup fails with a fatal error. -/
theorem c2_secret_fallback_operates :
    jwtSecretInit none [50] = [50] ∧
    jwtSecretInit (some []) [50] = [50] ∧
    verifyJWT (fun sec _ => sec) (jwtSecretInit none [50]) 0
        (createJWT (fun sec _ => sec) (jwtSecretInit none [50]) 0 c2Claims)
      = some (mkFullPayload c2Claims 0) ∧
    verifyJWT (fun sec _ => sec) (jwtSecretInit none [51]) 0
        (createJWT (fun sec _ => sec) (jwtSecretInit none [50]) 0 c2Claims)
      = none := by
  refine ⟨rfl, rfl, ?_, ?_⟩
  · rw [verifyJWT_createJWT (fun sec _ => sec) (jwtSecretInit none [50]) c2Claims 0 0
      (by decide) (by decide) (by decide) (by decide)]
    rfl
  · rw [verifyJWT_eq_of_split (fun sec _ => sec) (jwtSecretInit none [51]) 0 _ _ _ _
      (splitDots_createJWT (fun sec _ => sec) (jwtSecretInit none [50]) 0 c2Claims)]
    rw [if_neg (by decide)]

/-! ## Claim C10: the admin gate -/

/-- C10: `isAdmin` grants elevated access exactly when the stored role is
`"admin"` or the wallet address equals the configured operator wallet;
`adminMiddleware` passes an attached user exactly under `isAdmin`; in
particular a user whose stored role is the ordinary `"user"` tier but whose
wallet matches the operator wallet passes the admin gate, with no role
migration involved. -/
theorem c10_admin_gate_exactly (adminWallet : List Nat) (u : UserRow) :
    (isAdmin adminWallet u = true ↔
       (u.role = adminRole ∨ u.walletAddress = some adminWallet)) ∧
    (adminGate adminWallet (some u) = isAdmin adminWallet u) ∧
    (u.role = userRole → u.walletAddress = some adminWallet →
       adminGate adminWallet (some u) = true ∧ u.role ≠ adminRole) := by
  refine ⟨?_, rfl, ?_⟩
  · simp [isAdmin]
  · intro hrole hw
    constructor
    · simp [adminGate, isAdmin, hw]
    · rw [hrole]
      decide

/-! ## Concrete witnesses -/

/-- Concrete HMAC stand-in for the C3 witness. -/
def w3H : List Nat → List Nat → List Nat := fun _ _ => [1, 2, 3]

/-- Concrete claim set for the C3 witness. -/
def w3C : ClaimSet :=
  { userId := [117], walletAddress := some [119], email := none, role := [114] }

/-- Witness for C3 at a concrete claim set, secret and clock: verification
succeeds at the expiry boundary and fails one second past it. -/
theorem c3_witness :
    verifyJWT w3H [9] 604800 (createJWT w3H [9] 0 w3C) = some (mkFullPayload w3C 0) ∧
    verifyJWT w3H [9] 604801 (createJWT w3H [9] 0 w3C) = none :=
  ⟨(c3_issue_verify_round_trip w3H [9] w3C 0 604800 (by decide) (by decide) (by decide)
      (by decide)).1 (by decide),
   (c3_issue_verify_round_trip w3H [9] w3C 0 604801 (by decide) (by decide) (by decide)
      (by decide)).2 (by decide)⟩

/-- Concrete HMAC stand-in for the C9 witness. -/
def w9H : List Nat → List Nat → List Nat := fun _ _ => [1]

/-- Concrete claim set for the C9 witness. -/
def w9C : ClaimSet := { userId := [117], walletAddress := none, email := none, role := [114] }

/-- The C9 witness token and its three segments. -/
def w9T : List Nat := createJWT w9H [9] 0 w9C

/-- Header segment of the witness token. -/
def w9eh : List Nat := base64UrlEncode headerJson

/-- Payload segment of the witness token. -/
def w9ep : List Nat := base64UrlEncode (payloadToJson (mkFullPayload w9C 0))

/-- Signature segment of the witness token (`base64url` of the digest `[1]`,
which is the two characters `AQ`, bytes `[65, 81]`). -/
def w9sg : List Nat := base64UrlEncode (w9H [9] (w9eh ++ 46 :: w9ep))

/-- Witness for C9: changing the first signature character of a concretely
verified token from `A` (65) to `B` (66) makes verification fail. -/
theorem c9_witness :
    w9T = w9eh ++ (46 :: (w9ep ++ (46 :: w9sg))) ∧
    verifyJWT w9H [9] 5 (w9eh ++ (46 :: (w9ep ++ (46 :: [66, 81])))) = none := by
  have hv : verifyJWT w9H [9] 0 w9T = some (mkFullPayload w9C 0) := by
    simp only [w9T]
    rw [verifyJWT_createJWT w9H [9] w9C 0 0 (by decide) (by decide) (by decide) (by decide)]
    rfl
  have hsplit : splitDots w9T = [w9eh, w9ep, w9sg] :=
    splitDots_createJWT w9H [9] 0 w9C
  have h := c9_signature_tamper_rejected w9H [9] 0 w9T w9eh w9ep w9sg [66, 81]
    (mkFullPayload w9C 0) 0 hv hsplit (by decide) (by decide) (by decide) (by decide)
  exact ⟨h.1, h.2 5⟩

/-- Concrete HMAC stand-in for the C1 witness. -/
def w1H : List Nat → List Nat → List Nat := fun _ _ => [2]

/-- Concrete claim set for the C1 witness. -/
def w1C : ClaimSet := { userId := [117], walletAddress := none, email := none, role := [117] }

/-- The C1 witness session token. -/
def w1T : List Nat := createJWT w1H [3] 0 w1C

/-- The C1 witness user: has a password hash `[104]` and an active session. -/
def w1User : UserRow :=
  { id := [117], username := [110], email := none, walletAddress := none,
    passwordHash := some [104], role := [117], bannedAt := none }

/-- The C1 witness store: the user plus a live session for `w1T`. -/
def w1Store : StoreState :=
  { users := [w1User],
    sessions := [{ id := 1, userId := [117], token := w1T, expiresAt := 50 }],
    resetTokens := [], challenges := [] }

/-- A policy-conformant new password (`Aa1aaaaa`). -/
def w1npw : List Nat := [65, 97, 49, 97, 97, 97, 97, 97]

set_option maxRecDepth 8000 in
/-- Witness for C1: at a concrete store, a successful password change leaves
the session table unchanged and the pre-change token still passes the auth
gate. -/
theorem c1_witness :
    (changePassword (fun a b => a == b) (fun p => p) w1Store w1User [104] w1npw).1.sessions
        = w1Store.sessions ∧
    ∃ u', authGate w1H [3] 0 5
        (changePassword (fun a b => a == b) (fun p => p) w1Store w1User [104] w1npw).1
        (some w1T) = .authorized u' := by
  have hgate : authGate w1H [3] 0 5 w1Store (some w1T) = .authorized w1User := by decide
  have hcp : changePassword (fun a b => a == b) (fun p => p) w1Store w1User [104] w1npw
      = ((changePassword (fun a b => a == b) (fun p => p) w1Store w1User [104] w1npw).1,
         Resp.passwordChanged) := by decide
  exact c1_changePassword_keeps_sessions w1H [3] 0 5 (fun a b => a == b) (fun p => p)
    w1Store _ w1User w1T [104] w1npw hgate hcp

/-- Concrete HMAC stand-in for the C4 witness. -/
def w4H : List Nat → List Nat → List Nat := fun _ _ => [4]

/-- The C4 witness store: one live unused challenge. -/
def w4Store : StoreState :=
  { users := [], sessions := [], resetTokens := [],
    challenges := [{ id := 1, walletAddress := [119, 119, 119], challenge := [99],
                     used := false, expiresAt := 100 }] }

/-- Store state after the first successful wallet-verify of the C4 witness. -/
def w4S1 : StoreState :=
  (walletVerify (fun _ _ _ => true) w4H [3] [] 0 0 [105] 9 w4Store
    [119, 119, 119] [99] [115] [112]).1

/-- The token issued by the first wallet-verify of the C4 witness. -/
def w4Tok : List Nat :=
  createJWT w4H [3] 0
    { userId := [105], walletAddress := some [119, 119, 119], email := none,
      role := userRole }

set_option maxRecDepth 8000 in
/-- Witness for C4: after the concrete first verify consumed the challenge,
re-presenting the same wallet and challenge text is rejected as invalid or
expired even with a fresh signature and different clock. -/
theorem c4_witness :
    walletVerify (fun _ _ _ => true) w4H [3] [] 1 1 [106] 10 w4S1
        [119, 119, 119] [99] [116] [113] = (w4S1, Resp.invalidOrExpiredChallenge) :=
  c4_challenge_not_reusable (fun _ _ _ => true) (fun _ _ _ => true) w4H w4H [3] [3]
    [] [] 0 0 1 1 [105] [106] 9 10 w4Store w4S1 [119, 119, 119] [99] [115] [112]
    [116] [113] [105] w4Tok (by decide) (by decide) (by decide) (by decide)

/-- The C6 witness store: one used and one expired reset token. -/
def w6Store : StoreState :=
  { users := [], sessions := [], challenges := [],
    resetTokens :=
      [{ id := 1, userId := [117], token := [97], used := true, expiresAt := 100 },
       { id := 2, userId := [117], token := [98], used := false, expiresAt := 5 }] }

/-- A policy-conformant password for the C6 witness. -/
def w6pw : List Nat := [65, 97, 49, 97, 97, 97, 97, 97]

/-- Witness for C6 at clock 10: a never-issued token `[99]`, the used token
`[97]` and the expired token `[98]` all produce the identical uniform
response with the store untouched. -/
theorem c6_witness :
    resetPassword (fun p => p) 10 w6Store [99] w6pw
        = (w6Store, Resp.invalidOrExpiredResetToken) ∧
    resetPassword (fun p => p) 10 w6Store [97] w6pw
        = (w6Store, Resp.invalidOrExpiredResetToken) ∧
    resetPassword (fun p => p) 10 w6Store [98] w6pw
        = (w6Store, Resp.invalidOrExpiredResetToken) :=
  ⟨(c6_reset_failure_uniform (fun p => p) 10 w6Store [99] w6pw (by decide)
      (by decide)).1 (by decide),
   (c6_reset_failure_uniform (fun p => p) 10 w6Store [97] w6pw (by decide)
      (by decide)).2.1 (by decide),
   (c6_reset_failure_uniform (fun p => p) 10 w6Store [98] w6pw (by decide)
      (by decide)).2.2 (by decide)⟩

/-- The C7 witness store: no registered users at all. -/
def w7Store : StoreState :=
  { users := [], sessions := [], resetTokens := [], challenges := [] }

/-- Witness for C7: for an unregistered e-mail the handler answers the
uniform success message, persists nothing and dispatches nothing. -/
theorem c7_witness :
    ((requestReset (fun _ => true) id [55] 7 true false 0 w7Store [102]).2.head?
      = some (REvent.responded Resp.resetRequested)) ∧
    requestReset (fun _ => true) id [55] 7 true false 0 w7Store [102]
      = (w7Store, [REvent.responded Resp.resetRequested]) := by
  have h := c7_request_reset_no_account_oracle (fun _ => true) id [55] 7 true false 0
    w7Store [102] (by decide)
  exact ⟨h.1, h.2 (by decide)⟩

/-- Witness for the amended C8: at the concrete registered store, the trace
is response first, persistence second, logged dispatch failure last. -/
theorem c8_witness :
    (requestReset (fun _ => true) id [55] 7 true true 0 c8Store [101]).2
      = [REvent.responded Resp.resetRequested,
         REvent.persistedResetToken
           { id := 7, userId := [117], token := [55], used := false,
             expiresAt := 3600000 },
         REvent.loggedDispatchFailure] := by
  have h := c8_response_first_then_persist_then_dispatch (fun _ => true) id [55] 7
    true true 0 c8Store [101] c8User (by decide) (by decide)
  simpa using h

/-- The C10 witness user: ordinary `"user"` role, operator wallet `[119]`. -/
def w10User : UserRow :=
  { id := [1], username := [2], email := none, walletAddress := some [119],
    passwordHash := none, role := userRole, bannedAt := none }

/-- Witness for C10: the ordinary-role user with the operator wallet passes
the admin gate while the role is not `"admin"`. -/
theorem c10_witness :
    adminGate [119] (some w10User) = true ∧ w10User.role ≠ adminRole :=
  (c10_admin_gate_exactly [119] w10User).2.2 rfl rfl

end NormieAuth

